import Mathlib

/-
Verification of the minesweeper-solver play loop (src/example_gui.py).

The controller Example.run and the checker verify are embedded shallowly:
probabilities are exact rationals, numpy's NaN missing-value sentinel is
Option.none, boolean numpy reductions become list computations, and the
float tolerance of numpy.isclose is carried over literally as
|a - b| <= atol + rtol * |b| with atol = 1e-8 and rtol = 1e-5 (numpy's
defaults).  The guess policy (corner_then_edge2_policy, an external
collaborator) is a parameter of the step function, as the spec requires the
controller to accept any policy.
-/

section

attribute [local semireducible] Rat.mul Rat.add Rat.sub Rat.inv Rat.ofScientific

deriving instance DecidableEq for Except

namespace Minesweeper

/-- A square of game.state: unrevealed, a flag, or a revealed cell showing
its adjacent-mine count (the entries that are Python ints). -/
inductive Square where
  | unrevealed : Square
  | flag : Square
  | num : ℕ → Square
deriving DecidableEq

/-- The board state, row major, as game.state. -/
abbrev Board := List (List Square)

/-- The probability grid returned by solver.solve; none is numpy NaN. -/
abbrev Grid := List (List (Option ℚ))

/-- Entry of the grid at row y, column x; out-of-bounds reads give none. -/
def gridGet (g : Grid) (y x : ℕ) : Option ℚ := (g.getD y []).getD x none

/-- Square of the board at row y, column x; out-of-bounds reads give unrevealed. -/
def boardGet (st : Board) (y x : ℕ) : Square := (st.getD y []).getD x Square.unrevealed

/-- The non-missing probability values in row-major order: prob[~np.isnan(prob)]. -/
def entries (g : Grid) : List ℚ := (g.map (List.filterMap id)).flatten

/-- The range check (prob[~np.isnan(prob)] > 0).all() and (prob[~np.isnan(prob)] <= 1).all(). -/
def rangeOk (g : Grid) : Bool := (entries g).all fun p => decide (0 < p) && decide (p ≤ 1)

/-- np.nanmin(prob): the least non-missing value, none when every entry is missing
(numpy returns NaN for an all-NaN slice). -/
def nanmin (g : Grid) : Option ℚ := (entries g).min?

/-- The minimum-bound check 0 < np.nanmin(prob) < 1; comparisons against numpy's
NaN are false, so an all-missing grid fails this check. -/
def minOk (g : Grid) : Bool :=
  match nanmin g with
  | some b => decide (0 < b) && decide (b < 1)
  | none => false

/-- np.nansum(prob): missing entries count as 0. -/
def nansum (g : Grid) : ℚ := (entries g).sum

/-- (prob == 1).sum(): how many entries equal exactly 1 (NaN == 1 is false). -/
def countOnes (g : Grid) : ℕ := (entries g).count 1

/-- numpy.isclose with its default tolerances atol = 1e-8 and rtol = 1e-5. -/
def isclose (a b : ℚ) : Bool := decide (|a - b| ≤ 1/100000000 + (1/100000) * |b|)

/-- The global mine-count check np.isclose(np.nansum(prob), game.mines_left + (prob == 1).sum()).
Note the sum is np.nansum of the grid as given: flagged cells are not modified here. -/
def globalOk (m : ℚ) (g : Grid) : Bool := isclose (nansum g) (m + (countOnes g : ℚ))

/-- The scratch array of the local check, built from a copy of the grid:
ar = prob.copy(); ar[np.isnan(ar)] = 0; ar[np.array(game.state) == 'flag'] = 1. -/
def arGrid (st : Board) (g : Grid) : List (List ℚ) :=
  (List.range g.length).map fun y =>
    (List.range (g.getD y []).length).map fun x =>
      if boardGet st y x = Square.flag then 1 else (gridGet g y x).getD 0

/-- Zero-padded read of a dense array, as convolve2d in mode 'same' pads the border. -/
def getQ (a : List (List ℚ)) (y x : ℤ) : ℚ :=
  if 0 ≤ y ∧ 0 ≤ x then (a.getD y.toNat []).getD x.toNat 0 else 0

/-- One output entry of convolve2d(ar, np.ones((3, 3)), mode='same'): the sum of
the 3x3 window centred at (y, x) — the cell itself included — zero padded. -/
def conv3 (a : List (List ℚ)) (y x : ℕ) : ℚ :=
  getQ a ((y:ℤ) - 1) ((x:ℤ) - 1) + getQ a ((y:ℤ) - 1) (x:ℤ) + getQ a ((y:ℤ) - 1) ((x:ℤ) + 1) +
  getQ a (y:ℤ) ((x:ℤ) - 1) + getQ a (y:ℤ) (x:ℤ) + getQ a (y:ℤ) ((x:ℤ) + 1) +
  getQ a ((y:ℤ) + 1) ((x:ℤ) - 1) + getQ a ((y:ℤ) + 1) (x:ℤ) + getQ a ((y:ℤ) + 1) ((x:ℤ) + 1)

/-- The revealed numbered cells as (y, x, number): the entries of game.state that
are ints; every other entry becomes NaN in the masked state array. -/
def numberedCells (st : Board) : List (ℕ × ℕ × ℕ) :=
  (List.range st.length).flatMap fun y =>
    (List.range (st.getD y []).length).filterMap fun x =>
      match boardGet st y x with
      | Square.num n => some (y, x, n)
      | _ => none

/-- not np.isnan(state).all(): the board has at least one revealed numbered cell. -/
def hasNumbered (st : Board) : Bool := !(numberedCells st).isEmpty

/-- np.isclose(state[~np.isnan(state)], summed_prob[~np.isnan(state)]).all():
every revealed number is close to the 3x3 window sum of the adjusted grid. -/
def localAllClose (st : Board) (g : Grid) : Bool :=
  (numberedCells st).all fun c => isclose (c.2.2 : ℚ) (conv3 (arGrid st g) c.1 c.2.1)

/-- The four raise sites of verify, in source order. -/
inductive VerifyError where
  | outOfRange : VerifyError
  | noValidGuessBound : VerifyError
  | globalSumMismatch : VerifyError
  | localSumMismatch : VerifyError
deriving DecidableEq

/-- example_gui.verify: the four checks in source order, first failure raises. -/
def verify (st : Board) (m : ℚ) (g : Grid) : Except VerifyError Unit :=
  if !rangeOk g then .error .outOfRange
  else if !minOk g then .error .noValidGuessBound
  else if !globalOk m g then .error .globalSumMismatch
  else if hasNumbered st && !localAllClose st g then .error .localSumMismatch
  else .ok ()

/-- example_gui.verify with its data flow threaded explicitly: the function is
handed the board and the grid and gives both back next to its result.  The
only assignments in the source mutate ar, the copy made by prob.copy()
(built here by arGrid from the unchanged inputs), never prob or game. -/
def verifySt (st : Board) (m : ℚ) (g : Grid) :
    Except VerifyError Unit × Grid × Board :=
  if !rangeOk g then (.error .outOfRange, g, st)
  else if !minOk g then (.error .noValidGuessBound, g, st)
  else if !globalOk m g then (.error .globalSumMismatch, g, st)
  else
    let ar := arGrid st g
    if hasNumbered st && !((numberedCells st).all fun c => isclose (c.2.2 : ℚ) (conv3 ar c.1 c.2.1))
    then (.error .localSumMismatch, g, st)
    else (.ok (), g, st)

/-- The flag actions of one step, as (x, y) clicks in emission order:
for y, x in zip(*((prob == 1) & (state != "flag")).nonzero()). -/
def flagCoords (st : Board) (g : Grid) : List (ℕ × ℕ) :=
  (List.range g.length).flatMap fun y =>
    (List.range (g.getD y []).length).filterMap fun x =>
      if gridGet g y x = some 1 ∧ boardGet st y x ≠ Square.flag then some (x, y) else none

/-- The cells opened by the batch branch, as (x, y) in emission order:
(prob == best_prob).nonzero() with best_prob = 0. -/
def zeroCells (g : Grid) : List (ℕ × ℕ) :=
  (List.range g.length).flatMap fun y =>
    (List.range (g.getD y []).length).filterMap fun x =>
      if gridGet g y x = some 0 then some (x, y) else none

/-- What one iteration of the inner loop of Example.run emits and computes:
the flag clicks, the reveal clicks, the updated expected_win accumulator and
how many times verify ran during the step. -/
structure StepResult where
  flags : List (ℕ × ℕ)
  reveals : List (ℕ × ℕ)
  expectedWin : ℚ
  verifyRuns : ℕ
deriving DecidableEq

/-- One iteration of the inner loop of Example.run, parametric in the guess
policy.  Python's best_prob != 0 comparison is false exactly when nanmin is
some 0 (NaN != 0 is true); on the guess branch verify runs and a raised
error propagates out of the step.  When nanmin is none, verify always fails
(see verify_err_of_nanmin_none), so the continuation reading (nanmin g).getD 0
is never reached on that branch. -/
def step (policy : Grid → ℕ × ℕ) (st : Board) (m : ℚ) (g : Grid) (ew : ℚ) :
    Except VerifyError StepResult :=
  if nanmin g = some 0 then
    .ok { flags := flagCoords st g, reveals := zeroCells g, expectedWin := ew, verifyRuns := 0 }
  else
    (verify st m g).map fun _ =>
      { flags := flagCoords st g, reveals := [policy g],
        expectedWin := ew * (1 - (nanmin g).getD 0), verifyRuns := 1 }

/-- The session counters of Example.run: games, wins, expected_wins. -/
structure SessionStats where
  games : ℕ
  wins : ℕ
  expectedWins : ℚ
deriving DecidableEq

/-- The counters before the first game: wins = 0; games = 0; expected_wins = 0. -/
def initStats : SessionStats := { games := 0, wins := 0, expectedWins := 0 }

/-- The per-game counter update of Example.run: games += 1 at the start of the
game, expected_wins += expected_win and wins += 1 on a win at its end. -/
def recordGameEnd (s : SessionStats) (won : Bool) (ew : ℚ) : SessionStats :=
  { games := s.games + 1, wins := s.wins + (if won then 1 else 0),
    expectedWins := s.expectedWins + ew }

/-- The counters after a whole session of games, given each game's outcome
and final expected_win value. -/
def runStats (l : List (Bool × ℚ)) : SessionStats :=
  l.foldl (fun s p => recordGameEnd s p.1 p.2) initStats

/-- A fixed guess policy used to instantiate the policy parameter in
concrete instances. -/
def policy0 : Grid → ℕ × ℕ := fun _ => (0, 0)

/-- The guess policy picking the centre cell, used in the 3x3 instance. -/
def policy11 : Grid → ℕ × ℕ := fun _ => (1, 1)

/-- A 3x3 board with no cell revealed. -/
def board3 : Board :=
  [[Square.unrevealed, Square.unrevealed, Square.unrevealed],
   [Square.unrevealed, Square.unrevealed, Square.unrevealed],
   [Square.unrevealed, Square.unrevealed, Square.unrevealed]]

/-- The uniform probability grid 1/9 on the 3x3 board. -/
def gridNinth : Grid :=
  [[some (1/9), some (1/9), some (1/9)],
   [some (1/9), some (1/9), some (1/9)],
   [some (1/9), some (1/9), some (1/9)]]

/-- A 2x2 board with no cell revealed. -/
def board2 : Board :=
  [[Square.unrevealed, Square.unrevealed], [Square.unrevealed, Square.unrevealed]]

/-- A 2x2 grid with three certain-safe cells and one uncertain cell. -/
def gridZ3 : Grid := [[some 0, some (1/2)], [some 0, some 0]]

/-- Modelled from the spec: the sum of all probability entries with missing
entries treated as 0 and flagged cells forced to 1, the quantity the spec
says the global mine-count check compares against minesRemaining. -/
def specGlobalSum (st : Board) (g : Grid) : ℚ :=
  ((List.range g.length).map fun y =>
    ((List.range (g.getD y []).length).map fun x =>
      if boardGet st y x = Square.flag then (1:ℚ) else (gridGet g y x).getD 0).sum).sum

/-- Modelled from the spec: the sum of probability mass (flags counted as 1,
missing as 0) over the up-to-8 neighbours of the cell at (y, x), the cell
itself not included. -/
def specNeighborSum (st : Board) (g : Grid) (y x : ℕ) : ℚ :=
  getQ (arGrid st g) ((y:ℤ) - 1) ((x:ℤ) - 1) + getQ (arGrid st g) ((y:ℤ) - 1) (x:ℤ) +
  getQ (arGrid st g) ((y:ℤ) - 1) ((x:ℤ) + 1) + getQ (arGrid st g) (y:ℤ) ((x:ℤ) - 1) +
  getQ (arGrid st g) (y:ℤ) ((x:ℤ) + 1) + getQ (arGrid st g) ((y:ℤ) + 1) ((x:ℤ) - 1) +
  getQ (arGrid st g) ((y:ℤ) + 1) (x:ℤ) + getQ (arGrid st g) ((y:ℤ) + 1) ((x:ℤ) + 1)

/-- Modelled from the spec: some revealed numbered cell whose neighbour sum
(cell itself excluded) is not numerically close to its number. -/
def specLocalBad (st : Board) (g : Grid) : Bool :=
  !((numberedCells st).all fun c => isclose (c.2.2 : ℚ) (specNeighborSum st g c.1 c.2.1))

/-- Modelled from the spec: the smallest probability value present, ignoring
missing entries and excluding cells whose probability is exactly 0 or 1. -/
def specUncertainMin (g : Grid) : Option ℚ :=
  ((entries g).filter fun p => decide (p ≠ 0) && decide (p ≠ 1)).min?

/-- Modelled from the spec: the condition under which claim C4 says verify
raises noValidGuessBound — that minimum is not strictly between 0 and 1
(in particular when no such value exists at all). -/
def specC4Raise (g : Grid) : Bool :=
  match specUncertainMin g with
  | some b => !(decide (0 < b) && decide (b < 1))
  | none => true

/-- Membership in the row-major cell enumerations used by the embedding. -/
theorem mem_range_flatMap_filterMap {β : Type} (A : ℕ) (B : ℕ → ℕ) (F : ℕ → ℕ → Option β) (c : β) :
    (c ∈ (List.range A).flatMap fun y => (List.range (B y)).filterMap fun x => F y x) ↔
      ∃ y x, y < A ∧ x < B y ∧ F y x = some c := by
  simp only [List.mem_flatMap, List.mem_filterMap, List.mem_range]
  tauto

/-- A non-missing read is inside the grid. -/
theorem gridGet_some_bounds {g : Grid} {y x : ℕ} {q : ℚ} (h : gridGet g y x = some q) :
    y < g.length ∧ x < (g.getD y []).length := by
  unfold gridGet at h
  by_cases hy : y < g.length
  · refine ⟨hy, ?_⟩
    by_cases hx : x < (g.getD y []).length
    · exact hx
    · rw [List.getD_eq_default (g.getD y []) none (by omega)] at h
      exact Option.noConfusion h
  · rw [List.getD_eq_default g [] (by omega)] at h
    exact Option.noConfusion h

/-- A numbered read is inside the board. -/
theorem boardGet_num_bounds {st : Board} {y x n : ℕ} (h : boardGet st y x = Square.num n) :
    y < st.length ∧ x < (st.getD y []).length := by
  unfold boardGet at h
  by_cases hy : y < st.length
  · refine ⟨hy, ?_⟩
    by_cases hx : x < (st.getD y []).length
    · exact hx
    · rw [List.getD_eq_default (st.getD y []) Square.unrevealed (by omega)] at h
      exact Square.noConfusion h
  · rw [List.getD_eq_default st [] (by omega)] at h
    exact Square.noConfusion h

/-- The flat list of non-missing values holds exactly the non-missing reads. -/
theorem mem_entries (g : Grid) (q : ℚ) : q ∈ entries g ↔ ∃ y x, gridGet g y x = some q := by
  unfold entries
  rw [List.mem_flatten]
  constructor
  · rintro ⟨l, hl, hq⟩
    rw [List.mem_map] at hl
    obtain ⟨row, hrow, rfl⟩ := hl
    rw [List.mem_filterMap] at hq
    obtain ⟨o, ho, hoq⟩ := hq
    obtain ⟨y, hy, hrowy⟩ := List.mem_iff_getElem.mp hrow
    obtain ⟨x, hx, hox⟩ := List.mem_iff_getElem.mp ho
    refine ⟨y, x, ?_⟩
    unfold gridGet
    rw [List.getD_eq_getElem _ _ hy, hrowy, List.getD_eq_getElem _ _ hx, hox]
    exact hoq
  · rintro ⟨y, x, h⟩
    obtain ⟨hy, hx⟩ := gridGet_some_bounds h
    unfold gridGet at h
    rw [List.getD_eq_getElem _ _ hy] at h hx
    rw [List.getD_eq_getElem _ _ hx] at h
    refine ⟨List.filterMap id g[y], List.mem_map.mpr ⟨g[y], List.getElem_mem hy, rfl⟩, ?_⟩
    rw [List.mem_filterMap]
    exact ⟨g[y][x], List.getElem_mem hx, by rw [h]; rfl⟩

/-- The range check passes iff every non-missing entry lies in (0, 1]. -/
theorem rangeOk_iff (g : Grid) :
    rangeOk g = true ↔ ∀ y x p, gridGet g y x = some p → 0 < p ∧ p ≤ 1 := by
  unfold rangeOk
  rw [List.all_eq_true]
  constructor
  · intro h y x p hp
    simpa using h p ((mem_entries g p).mpr ⟨y, x, hp⟩)
  · intro h p hp
    obtain ⟨y, x, hyx⟩ := (mem_entries g p).mp hp
    simpa using h y x p hyx

/-- The minimum-bound check passes iff the least value exists and is in (0, 1). -/
theorem minOk_iff (g : Grid) :
    minOk g = true ↔ ∃ b, nanmin g = some b ∧ 0 < b ∧ b < 1 := by
  unfold minOk
  rcases h : nanmin g with _ | b <;> simp [h]

/-- The global check passes iff the nansum is close to mines plus certain mines. -/
theorem globalOk_iff (m : ℚ) (g : Grid) :
    globalOk m g = true ↔
      |nansum g - (m + (countOnes g : ℚ))| ≤ 1/100000000 + (1/100000) * |m + (countOnes g : ℚ)| := by
  unfold globalOk isclose
  simp

/-- The numbered-cell enumeration holds exactly the revealed numbered reads. -/
theorem mem_numberedCells (st : Board) (y x n : ℕ) :
    (y, x, n) ∈ numberedCells st ↔ boardGet st y x = Square.num n := by
  unfold numberedCells
  rw [mem_range_flatMap_filterMap]
  constructor
  · rintro ⟨y', x', hy', hx', h⟩
    rcases hb : boardGet st y' x' with _ | _ | n' <;> rw [hb] at h <;> simp at h
    obtain ⟨rfl, rfl, rfl⟩ := h
    exact hb
  · intro h
    obtain ⟨hy, hx⟩ := boardGet_num_bounds h
    exact ⟨y, x, hy, hx, by rw [h]⟩

/-- The board has a revealed numbered cell iff some read is a number. -/
theorem hasNumbered_iff (st : Board) :
    hasNumbered st = true ↔ ∃ y x n, boardGet st y x = Square.num n := by
  unfold hasNumbered
  rw [Bool.not_eq_true', List.isEmpty_eq_false]
  constructor
  · intro h
    obtain ⟨⟨y, x, n⟩, hc⟩ := List.exists_mem_of_ne_nil _ h
    exact ⟨y, x, n, (mem_numberedCells st y x n).mp hc⟩
  · rintro ⟨y, x, n, h⟩
    exact List.ne_nil_of_mem ((mem_numberedCells st y x n).mpr h)

/-- The local check passes iff every revealed number is close to its 3x3 window sum. -/
theorem localAllClose_iff (st : Board) (g : Grid) :
    localAllClose st g = true ↔
      ∀ y x n, boardGet st y x = Square.num n →
        |(n:ℚ) - conv3 (arGrid st g) y x| ≤
          1/100000000 + (1/100000) * |conv3 (arGrid st g) y x| := by
  unfold localAllClose isclose
  rw [List.all_eq_true]
  constructor
  · intro h y x n hn
    simpa using h (y, x, n) ((mem_numberedCells st y x n).mpr hn)
  · rintro h ⟨y, x, n⟩ hc
    simpa using h y x n ((mem_numberedCells st y x n).mp hc)

/-- The batch branch opens exactly the cells whose probability is exactly 0. -/
theorem mem_zeroCells (g : Grid) (x y : ℕ) :
    (x, y) ∈ zeroCells g ↔ gridGet g y x = some 0 := by
  unfold zeroCells
  rw [mem_range_flatMap_filterMap]
  constructor
  · rintro ⟨y', x', hy', hx', h⟩
    split at h
    · next hc =>
      obtain ⟨rfl, rfl⟩ : x' = x ∧ y' = y := by simpa using h
      exact hc
    · cases h
  · intro h
    obtain ⟨hy, hx⟩ := gridGet_some_bounds h
    exact ⟨y, x, hy, hx, by rw [if_pos h]⟩

/-- The flag loop flags exactly the unflagged cells whose probability is 1. -/
theorem mem_flagCoords (st : Board) (g : Grid) (x y : ℕ) :
    (x, y) ∈ flagCoords st g ↔ gridGet g y x = some 1 ∧ boardGet st y x ≠ Square.flag := by
  unfold flagCoords
  rw [mem_range_flatMap_filterMap]
  constructor
  · rintro ⟨y', x', hy', hx', h⟩
    split at h
    · next hc =>
      obtain ⟨rfl, rfl⟩ : x' = x ∧ y' = y := by simpa using h
      exact hc
    · cases h
  · intro h
    obtain ⟨hy, hx⟩ := gridGet_some_bounds h.1
    exact ⟨y, x, hy, hx, by rw [if_pos h]⟩

/-- Which check each result of verify corresponds to: the checks run in source
order and the first failing one names the error. -/
theorem verify_cases (st : Board) (m : ℚ) (g : Grid) :
    (verify st m g = .error .outOfRange ↔ rangeOk g = false) ∧
    (verify st m g = .error .noValidGuessBound ↔ rangeOk g = true ∧ minOk g = false) ∧
    (verify st m g = .error .globalSumMismatch ↔
      rangeOk g = true ∧ minOk g = true ∧ globalOk m g = false) ∧
    (verify st m g = .error .localSumMismatch ↔
      rangeOk g = true ∧ minOk g = true ∧ globalOk m g = true ∧
      hasNumbered st = true ∧ localAllClose st g = false) ∧
    (verify st m g = .ok () ↔
      rangeOk g = true ∧ minOk g = true ∧ globalOk m g = true ∧
      (hasNumbered st = false ∨ localAllClose st g = true)) := by
  unfold verify
  rcases rangeOk g <;> rcases minOk g <;> rcases globalOk m g <;>
    rcases hasNumbered st <;> rcases localAllClose st g <;> simp

/-- On an all-missing grid verify fails before reaching the global check. -/
theorem verify_err_of_nanmin_none (st : Board) (m : ℚ) (g : Grid) (h : nanmin g = none) :
    verify st m g = .error .outOfRange ∨ verify st m g = .error .noValidGuessBound := by
  have hm : minOk g = false := by unfold minOk; rw [h]
  unfold verify
  rcases hr : rangeOk g <;> simp [hm]

/-- Folding the per-game counter update accumulates length, wins and sums. -/
theorem runStats_aux (s : SessionStats) (l : List (Bool × ℚ)) :
    l.foldl (fun s p => recordGameEnd s p.1 p.2) s =
      { games := s.games + l.length, wins := s.wins + (l.filter fun p => p.1).length,
        expectedWins := s.expectedWins + (l.map fun p => p.2).sum } := by
  induction l generalizing s with
  | nil => cases s <;> simp
  | cons p l ih =>
    rw [List.foldl_cons, ih]
    rcases p with ⟨won, ew⟩
    rcases won <;> simp [recordGameEnd, List.filter_cons] <;>
      and_intros <;> first | omega | ring

/-- Claim C1 (amended): on a step whose best probability is nonzero — also when
the grid is all-missing, where numpy's NaN compares unequal to 0 — the
controller runs the verifier exactly once over the grid used for that step's
decisions, and a reported inconsistency aborts the step by propagating out of
it; on a step whose best probability is exactly 0 the verifier is skipped and
the step never aborts. -/
theorem step_runs_verify_iff_nonzero_min (policy : Grid → ℕ × ℕ) (st : Board) (m : ℚ)
    (g : Grid) (ew : ℚ) :
    (nanmin g ≠ some 0 → ∀ r, step policy st m g ew = .ok r →
      r.verifyRuns = 1 ∧ verify st m g = .ok ()) ∧
    (∀ e, nanmin g ≠ some 0 →
      (step policy st m g ew = .error e ↔ verify st m g = .error e)) ∧
    (nanmin g = some 0 → ∀ r, step policy st m g ew = .ok r → r.verifyRuns = 0) ∧
    (nanmin g = some 0 → ∀ e, step policy st m g ew ≠ .error e) := by
  unfold step
  by_cases h : nanmin g = some 0
  · rw [if_pos h]
    refine ⟨fun hne => absurd h hne, fun e hne => absurd h hne, fun _ r hr => ?_,
      fun _ e => by simp⟩
    cases hr
    rfl
  · rw [if_neg h]
    rcases hv : verify st m g with err | u
    · exact ⟨fun _ r hr => by simp [Except.map] at hr,
        fun e _ => by simp [Except.map],
        fun h0 => absurd h0 h, fun h0 => absurd h0 h⟩
    · cases u
      exact ⟨fun _ r hr => ⟨by cases hr; rfl, rfl⟩,
        fun e _ => by simp [Except.map],
        fun h0 => absurd h0 h, fun h0 => absurd h0 h⟩

/-- Claim C1 counterexample: on the step whose grid is [[0, 2]] the best
probability is 0, so the controller opens the known-safe cell and never calls
the verifier, although the verifier would reject this very grid as out of
range: verification is skipped on the batch-opening branch and the
inconsistency goes unnoticed. -/
theorem step_zero_branch_skips_verify_cx :
    step policy0 [[Square.unrevealed, Square.unrevealed]] 1 [[some 0, some 2]] 1 =
      .ok { flags := [], reveals := [(0, 0)], expectedWin := 1, verifyRuns := 0 } ∧
    verify [[Square.unrevealed, Square.unrevealed]] 1 [[some 0, some 2]] =
      .error .outOfRange := by
  decide

/-- Claim C1 witness: on the one-cell grid [[2]] the step propagates exactly
the error the verifier reports, and on the grid [[0, 2]] a completed step ran
the verifier zero times. -/
theorem step_runs_verify_iff_nonzero_min_witness :
    (step policy0 [[Square.unrevealed]] 1 [[some 2]] 1 = .error .outOfRange ↔
      verify [[Square.unrevealed]] 1 [[some 2]] = .error .outOfRange) ∧
    ({ flags := [], reveals := [(0, 0)], expectedWin := 1, verifyRuns := 0 : StepResult }.verifyRuns
      = 0) := by
  constructor
  · exact (step_runs_verify_iff_nonzero_min policy0 [[Square.unrevealed]] 1 [[some 2]] 1).2.1
      .outOfRange (by decide)
  · exact (step_runs_verify_iff_nonzero_min policy0 [[Square.unrevealed, Square.unrevealed]] 1
      [[some 0, some 2]] 1).2.2.1 (by decide) _ (by decide)

/-- Claim C2 counterexample: on a board whose flagged cell has a missing
probability entry, the spec's sum (flags forced to 1) is 2 and is far from
minesRemaining = 1, yet verify returns successfully: the source sums
np.nansum(prob) without forcing flagged cells to 1, so the claimed iff fails. -/
theorem verify_global_flags_not_forced_cx :
    specGlobalSum [[Square.flag, Square.unrevealed, Square.unrevealed]]
      [[none, some (1/2), some (1/2)]] = 2 ∧
    ¬ |(2:ℚ) - (1 + (countOnes [[none, some (1/2), some (1/2)]] : ℚ))|
        ≤ 1/100000000 + (1/100000) * |1 + (countOnes [[none, some (1/2), some (1/2)]] : ℚ)| ∧
    verify [[Square.flag, Square.unrevealed, Square.unrevealed]] 1
      [[none, some (1/2), some (1/2)]] = .ok () ∧
    ¬ (verify [[Square.flag, Square.unrevealed, Square.unrevealed]] 1
          [[none, some (1/2), some (1/2)]] = .error .globalSumMismatch ↔
        ¬ |specGlobalSum [[Square.flag, Square.unrevealed, Square.unrevealed]]
              [[none, some (1/2), some (1/2)]]
            - (1 + (countOnes [[none, some (1/2), some (1/2)]] : ℚ))|
          ≤ 1/100000000 + (1/100000) * |1 + (countOnes [[none, some (1/2), some (1/2)]] : ℚ)|) := by
  decide

/-- Claim C2 (amended): verify raises globalSumMismatch exactly when the range
and minimum-bound checks pass and np.nansum of the grid — missing entries as
0, flagged cells not modified — differs from minesRemaining plus the number
of cells at probability exactly 1 by more than the isclose tolerance. -/
theorem verify_global_sum_mismatch_iff (st : Board) (m : ℚ) (g : Grid) :
    verify st m g = .error .globalSumMismatch ↔
      ((∀ y x p, gridGet g y x = some p → 0 < p ∧ p ≤ 1) ∧
       (∃ b, nanmin g = some b ∧ 0 < b ∧ b < 1) ∧
       ¬ |nansum g - (m + (countOnes g : ℚ))|
           ≤ 1/100000000 + (1/100000) * |m + (countOnes g : ℚ)|) := by
  rw [(verify_cases st m g).2.2.1, ← rangeOk_iff, ← minOk_iff, ← globalOk_iff]
  simp

/-- Claim C3 counterexample: on the board [1, unrevealed] with grid
[1/2, 1/2], the revealed number's 8-neighbour sum (cell itself excluded) is
1/2, far from 1, so the claim predicts localSumMismatch, yet verify returns
successfully: the source's 3x3 convolution window also counts the numbered
cell's own probability mass. -/
theorem verify_local_window_includes_centre_cx :
    hasNumbered [[Square.num 1, Square.unrevealed]] = true ∧
    specNeighborSum [[Square.num 1, Square.unrevealed]] [[some (1/2), some (1/2)]] 0 0 = 1/2 ∧
    specLocalBad [[Square.num 1, Square.unrevealed]] [[some (1/2), some (1/2)]] = true ∧
    verify [[Square.num 1, Square.unrevealed]] 1 [[some (1/2), some (1/2)]] = .ok () ∧
    ¬ (verify [[Square.num 1, Square.unrevealed]] 1 [[some (1/2), some (1/2)]] =
          .error .localSumMismatch ↔
        specLocalBad [[Square.num 1, Square.unrevealed]] [[some (1/2), some (1/2)]] = true) := by
  decide

/-- Claim C3 (amended): verify raises localSumMismatch exactly when the three
earlier checks pass, the board has a revealed numbered cell, and some revealed
numbered cell's number is not close to the sum of probability mass (flags as
1, missing as 0) over the full 3x3 window centred on it — the cell's own
entry included, as the convolution computes it. -/
theorem verify_local_sum_mismatch_iff (st : Board) (m : ℚ) (g : Grid) :
    verify st m g = .error .localSumMismatch ↔
      ((∀ y x p, gridGet g y x = some p → 0 < p ∧ p ≤ 1) ∧
       (∃ b, nanmin g = some b ∧ 0 < b ∧ b < 1) ∧
       |nansum g - (m + (countOnes g : ℚ))|
           ≤ 1/100000000 + (1/100000) * |m + (countOnes g : ℚ)| ∧
       (∃ y x n, boardGet st y x = Square.num n) ∧
       ¬ ∀ y x n, boardGet st y x = Square.num n →
           |(n:ℚ) - conv3 (arGrid st g) y x| ≤
             1/100000000 + (1/100000) * |conv3 (arGrid st g) y x|) := by
  rw [(verify_cases st m g).2.2.2.1, ← rangeOk_iff, ← minOk_iff, ← globalOk_iff,
    ← hasNumbered_iff, ← localAllClose_iff]
  simp

/-- Claim C4 counterexample: on the one-cell grid [[2]] the claim's minimum
(excluding exact 0/1 cells) is 2, outside (0, 1), so the claim predicts
noValidGuessBound, yet verify raises outOfRange because the range check runs
first: the claimed iff fails. -/
theorem verify_min_bound_order_cx :
    specC4Raise [[some 2]] = true ∧
    verify [[Square.unrevealed]] 1 [[some 2]] = .error .outOfRange ∧
    ¬ (verify [[Square.unrevealed]] 1 [[some 2]] = .error .noValidGuessBound ↔
        specC4Raise [[some 2]] = true) := by
  decide

/-- Claim C4 (amended): verify raises noValidGuessBound exactly when the range
check passes and np.nanmin over all non-missing entries — exact-1 cells not
excluded, no value present when every entry is missing — is not strictly
between 0 and 1. -/
theorem verify_no_valid_guess_iff (st : Board) (m : ℚ) (g : Grid) :
    verify st m g = .error .noValidGuessBound ↔
      ((∀ y x p, gridGet g y x = some p → 0 < p ∧ p ≤ 1) ∧
       ¬ ∃ b, nanmin g = some b ∧ 0 < b ∧ b < 1) := by
  rw [(verify_cases st m g).2.1, ← rangeOk_iff, ← minOk_iff]
  simp

/-- Claim C5: verify rejects with outOfRange exactly when some non-missing
entry lies outside the open-closed interval (0, 1] — exact 0, negative or
above 1 — and since the range check is the first check, such a grid fails
with outOfRange and with no other violation kind. -/
theorem verify_range_check_first (st : Board) (m : ℚ) (g : Grid) :
    verify st m g = .error .outOfRange ↔
      ¬ ∀ y x p, gridGet g y x = some p → 0 < p ∧ p ≤ 1 := by
  rw [(verify_cases st m g).1, ← rangeOk_iff]
  simp

/-- Claim C6: on a step whose minimum probability b is nonzero and which
completes, the expected-win accumulator is multiplied by (1 - b) and exactly
one reveal is emitted, at the coordinate chosen by the guess policy. -/
theorem step_nonzero_guess (policy : Grid → ℕ × ℕ) (st : Board) (m : ℚ) (g : Grid)
    (ew b : ℚ) (hb : nanmin g = some b) (h0 : b ≠ 0) (r : StepResult)
    (hr : step policy st m g ew = .ok r) :
    r.expectedWin = ew * (1 - b) ∧ r.reveals = [policy g] ∧ r.reveals.length = 1 := by
  unfold step at hr
  rw [hb, if_neg (by simpa using h0)] at hr
  rcases hv : verify st m g with e | u <;> rw [hv] at hr
  · cases hr
  · cases hr
    exact ⟨rfl, rfl, rfl⟩

/-- Claim C6 witness: on the all-unrevealed 3x3 board with the uniform 1/9
grid and one mine, the step passes verification, multiplies the accumulator
1 by 8/9 and emits exactly the one reveal picked by the policy. -/
theorem step_nonzero_guess_witness :
    nanmin gridNinth = some (1/9) ∧ (1/9 : ℚ) ≠ 0 ∧
    step policy11 board3 1 gridNinth 1 =
      .ok { flags := [], reveals := [(1, 1)], expectedWin := 8/9, verifyRuns := 1 } ∧
    (({ flags := [], reveals := [(1, 1)], expectedWin := 8/9, verifyRuns := 1 : StepResult}.expectedWin
        = 1 * (1 - 1/9)) ∧
     ({ flags := [], reveals := [(1, 1)], expectedWin := 8/9, verifyRuns := 1 : StepResult}.reveals
        = [policy11 gridNinth]) ∧
     ({ flags := [], reveals := [(1, 1)], expectedWin := 8/9, verifyRuns := 1 : StepResult}.reveals.length
        = 1)) := by
  refine ⟨by decide, by decide, by decide, ?_⟩
  exact step_nonzero_guess policy11 board3 1 gridNinth 1 (1/9) (by decide) (by decide) _ (by decide)

/-- Claim C7: on a step whose minimum probability is exactly 0, the controller
opens exactly the cells whose probability is exactly 0 — the reveal list is
their row-major enumeration — leaves the expected-win accumulator unchanged,
and, provided no cell sits at probability exactly 1 unflagged, emits no flag
actions. -/
theorem step_zero_batch (policy : Grid → ℕ × ℕ) (st : Board) (m : ℚ) (g : Grid) (ew : ℚ)
    (h : nanmin g = some 0) :
    step policy st m g ew =
      .ok { flags := flagCoords st g, reveals := zeroCells g, expectedWin := ew,
            verifyRuns := 0 } ∧
    (∀ x y, (x, y) ∈ zeroCells g ↔ gridGet g y x = some 0) ∧
    ((∀ y x, ¬ (gridGet g y x = some 1 ∧ boardGet st y x ≠ Square.flag)) →
      flagCoords st g = []) := by
  refine ⟨by unfold step; rw [if_pos h], fun x y => mem_zeroCells g x y, fun hno => ?_⟩
  rcases hfc : flagCoords st g with _ | ⟨⟨x, y⟩, l⟩
  · rfl
  · exfalso
    have hc : (x, y) ∈ flagCoords st g := by rw [hfc]; exact List.mem_cons_self ..
    exact hno y x ((mem_flagCoords st g x y).mp hc)

/-- Claim C7 witness: on the 2x2 grid with three certain-safe cells, the step
emits exactly the three reveals (0,0), (0,1), (1,1), no flags, and keeps the
accumulator at 1. -/
theorem step_zero_batch_witness :
    nanmin gridZ3 = some 0 ∧
    step policy0 board2 1 gridZ3 1 =
      .ok { flags := flagCoords board2 gridZ3, reveals := zeroCells gridZ3, expectedWin := 1,
            verifyRuns := 0 } ∧
    zeroCells gridZ3 = [(0, 0), (0, 1), (1, 1)] ∧
    flagCoords board2 gridZ3 = [] := by
  refine ⟨by decide, (step_zero_batch policy0 board2 1 gridZ3 1 (by decide)).1, by decide, ?_⟩
  refine (step_zero_batch policy0 board2 1 gridZ3 1 (by decide)).2.2 (fun y x => ?_)
  rcases y with _ | _ | y <;> rcases x with _ | _ | x <;>
    first
      | exact fun hc => absurd hc.1 (by decide)
      | exact fun hc => Option.noConfusion hc.1

/-- Claim C8: after any session of recorded game ends, the tracker's counters
are the number of games, the number of wins and the sum of the per-game
expected-win values, so the realized win rate is exactly W/N and the expected
win rate is the sum of expected wins divided by N. -/
theorem runStats_correct (l : List (Bool × ℚ)) :
    (runStats l).games = l.length ∧
    (runStats l).wins = (l.filter fun p => p.1).length ∧
    (runStats l).expectedWins = (l.map fun p => p.2).sum ∧
    ((runStats l).wins : ℚ) / ((runStats l).games : ℚ)
        = ((l.filter fun p => p.1).length : ℚ) / (l.length : ℚ) ∧
    (runStats l).expectedWins / ((runStats l).games : ℚ)
        = (l.map fun p => p.2).sum / (l.length : ℚ) := by
  unfold runStats
  rw [runStats_aux initStats l]
  simp [initStats]

/-- Claim C9: the verifier mutates nothing: threaded through a step with its
data flow explicit, it hands back the very probability grid and board state
it was given next to its result, which is that of verify; the in-place
updates of the source happen only on ar, the copy made by prob.copy(). -/
theorem verifySt_no_mutation (st : Board) (m : ℚ) (g : Grid) :
    verifySt st m g = (verify st m g, g, st) := by
  simp only [verifySt, verify, localAllClose]
  rcases rangeOk g <;> rcases minOk g <;> rcases globalOk m g <;>
    rcases hasNumbered st <;>
    rcases Bool.eq_false_or_eq_true
      ((numberedCells st).all fun c => isclose (c.2.2 : ℚ) (conv3 (arGrid st g) c.1 c.2.1))
      with h5 | h5 <;>
    first
      | rfl
      | (simp only [h5]; rfl)

/-- Claim C10: on a grid whose entries are all missing, the range check passes
vacuously, yet verify never returns successfully: it raises
noValidGuessBound, since the minimum over an all-missing grid is not strictly
between 0 and 1. -/
theorem verify_all_missing (st : Board) (m : ℚ) (g : Grid)
    (h : ∀ y x, gridGet g y x = none) :
    rangeOk g = true ∧ verify st m g = .error .noValidGuessBound := by
  have hent : entries g = [] := by
    rcases hq : entries g with _ | ⟨q, l⟩
    · rfl
    · exfalso
      have hq' : q ∈ entries g := by rw [hq]; exact List.mem_cons_self ..
      obtain ⟨y, x, hyx⟩ := (mem_entries g q).mp hq'
      rw [h y x] at hyx
      cases hyx
  have hr : rangeOk g = true := by unfold rangeOk; rw [hent]; rfl
  have hm : minOk g = false := by unfold minOk nanmin; rw [hent]; rfl
  refine ⟨hr, ?_⟩
  unfold verify
  rw [hr, hm]
  rfl

/-- Claim C10 witness: the 2x2 all-missing grid passes the range check and is
rejected with noValidGuessBound. -/
theorem verify_all_missing_witness :
    rangeOk [[none, none], [none, none]] = true ∧
    verify [[Square.unrevealed, Square.unrevealed], [Square.unrevealed, Square.unrevealed]] 3
      [[none, none], [none, none]] = .error .noValidGuessBound := by
  refine verify_all_missing _ 3 _ (fun y x => ?_)
  rcases y with _ | _ | y <;> rcases x with _ | _ | x <;> rfl

end Minesweeper

end
